import Mathlib

/-
  Verification development for the MPS flat-file parser
  (ViewMPS/src/utilities/mps.py).

  The parser is embedded shallowly: each Python function becomes a Lean
  function over lists of characters.  Python `re` patterns are transcribed
  as ordered lists of character-class items and matched with a
  leftmost-greedy backtracking engine that mirrors Python's semantics for
  the pattern shapes used in the source (anchored sequences of
  class-quantifier items).  Python `float()` on tokens drawn from the
  character class [0-9eE.+-] is modelled exactly as a canonical decimal value m*10^e; IEEE
  rounding/underflow is not modelled, which is irrelevant to the claims
  proved here (whether a stated literal is stored never depends on
  rounding of a nonzero literal in any claim below).  Python dicts are
  modelled as association lists with update-in-place-or-append insertion,
  which preserves Python's key order and uniqueness.
-/

set_option maxHeartbeats 4000000

namespace MPSV

/-- A line of text, as a list of characters. -/
abbrev Line := List Char

/-- ASCII whitespace: the characters stripped by Python `str.strip()` and
matched by the regex class `\s` (ASCII range). -/
def isPySpace (c : Char) : Bool :=
  c = ' ' || c = '\t' || c = '\n' || c = '\r' || c = '\x0b' || c = '\x0c'

/-- Python `str.strip()`: remove leading and trailing whitespace. -/
def pyStrip (l : Line) : Line :=
  ((l.dropWhile isPySpace).reverse.dropWhile isPySpace).reverse

/-- Character classes occurring in the MPS regular expressions:
`\S`, `\s` and `[0-9eE.+-]`. -/
inductive CC
  | nonspace
  | space
  | numeric
deriving DecidableEq

def CC.test : CC → Char → Bool
  | .nonspace, c => !(isPySpace c)
  | .space, c => isPySpace c
  | .numeric, c => c.isDigit || c = 'e' || c = 'E' || c = '.' || c = '+' || c = '-'

/-- Quantifiers occurring in the MPS regular expressions: a single
occurrence, `+`, or `*`. -/
inductive RQ
  | one
  | plus
  | star
deriving DecidableEq

/-- One item of an anchored pattern: a character class with a quantifier,
optionally a capturing group. -/
structure RItem where
  cls : CC
  q : RQ
  cap : Bool
deriving DecidableEq

def rqMin : RQ → Nat
  | .one => 1
  | .plus => 1
  | .star => 0

/-- Candidate lengths for the run matched by one item, in the order a
greedy backtracking matcher tries them: longest first, down to the
quantifier's minimum. -/
def kCandidates (it : RItem) (s : Line) : List Nat :=
  let run := (s.takeWhile (CC.test it.cls)).length
  let hi := match it.q with
    | .one => min 1 run
    | _ => run
  let lo := rqMin it.q
  (List.range (hi + 1 - lo)).map (fun i => hi - i)

/-- Leftmost-greedy matcher for a fully anchored (`^...$`) sequence of
class items, returning the captured groups; mirrors Python `re.match`
on the patterns used by the MPS parser.  A class run cannot cross a
character outside its class, so trying run lengths greedily with
backtracking is exactly Python's search order. -/
def goM : List RItem → Line → Option (List Line)
  | [], s => if s.isEmpty then some [] else none
  | it :: its, s =>
    (kCandidates it s).findSome? (fun k =>
      match goM its (s.drop k) with
      | some gs => some (if it.cap then s.take k :: gs else gs)
      | none => none)

def capNS1 : RItem := ⟨.nonspace, .one, true⟩
def capNSp : RItem := ⟨.nonspace, .plus, true⟩
def capNSs : RItem := ⟨.nonspace, .star, true⟩
def capNum : RItem := ⟨.numeric, .plus, true⟩
def skipSp : RItem := ⟨.space, .plus, false⟩

/-- `MPS_ROWS_DATA_RE`: `^(\S)\s+(\S+)$`. -/
def rowsDataItems : List RItem := [capNS1, skipSp, capNSp]

/-- `MPS_COLUMNS_2_DATA_RE` and `MPS_RHS_2_DATA_RE` (identical patterns):
`^(\S+)\s+(\S+)\s+([0-9eE.+-]+)\s+(\S+)\s+([0-9eE.+-]+)$`. -/
def pair2Items : List RItem :=
  [capNSp, skipSp, capNSp, skipSp, capNum, skipSp, capNSp, skipSp, capNum]

/-- `MPS_COLUMNS_1_DATA_RE` and `MPS_RHS_1_DATA_RE`:
`^(\S+)\s+(\S+)\s+([0-9eE.+-]+)$`. -/
def pair1Items : List RItem := [capNSp, skipSp, capNSp, skipSp, capNum]

/-- `MPS_RHS_2_DATA_EXTRA_RE`: `^(\S+)\s+([0-9eE.+-]+)\s+(\S+)\s+([0-9eE.+-]+)$`. -/
def rhs2ExtraItems : List RItem :=
  [capNSp, skipSp, capNum, skipSp, capNSp, skipSp, capNum]

/-- `MPS_RHS_1_DATA_EXTRA_RE`: `^(\S+)\s+([0-9eE.+-]+)$`. -/
def rhs1ExtraItems : List RItem := [capNSp, skipSp, capNum]

/-- `MPS_RANGES_2_DATA_RE`: `^(\S*)\s+(\S+)\s+([0-9eE.+-]+)\s+(\S+)\s+([0-9eE.+-]+)$`. -/
def ranges2Items : List RItem :=
  [capNSs, skipSp, capNSp, skipSp, capNum, skipSp, capNSp, skipSp, capNum]

/-- `MPS_RANGES_1_DATA_RE`: `^(\S*)\s+(\S+)\s+([0-9eE.+-]+)$`. -/
def ranges1Items : List RItem := [capNSs, skipSp, capNSp, skipSp, capNum]

/-- `MPS_BOUNDS_DATA_RE`: `^(\S+)\s+(\S*)\s+(\S+)\s+([0-9eE.+-]+)$`. -/
def boundsItems : List RItem := [capNSp, skipSp, capNSs, skipSp, capNSp, skipSp, capNum]

def matchRowsData (l : Line) : Option (Line × Line) :=
  match goM rowsDataItems l with
  | some [g1, g2] => some (g1, g2)
  | _ => none

def match2Pair (l : Line) : Option (Line × Line × Line × Line × Line) :=
  match goM pair2Items l with
  | some [a, b, c, d, e] => some (a, b, c, d, e)
  | _ => none

def match1Pair (l : Line) : Option (Line × Line × Line) :=
  match goM pair1Items l with
  | some [a, b, c] => some (a, b, c)
  | _ => none

def matchRHS2Extra (l : Line) : Option (Line × Line × Line × Line) :=
  match goM rhs2ExtraItems l with
  | some [a, b, c, d] => some (a, b, c, d)
  | _ => none

def matchRHS1Extra (l : Line) : Option (Line × Line) :=
  match goM rhs1ExtraItems l with
  | some [a, b] => some (a, b)
  | _ => none

def matchRanges2 (l : Line) : Option (Line × Line × Line × Line × Line) :=
  match goM ranges2Items l with
  | some [a, b, c, d, e] => some (a, b, c, d, e)
  | _ => none

def matchRanges1 (l : Line) : Option (Line × Line × Line) :=
  match goM ranges1Items l with
  | some [a, b, c] => some (a, b, c)
  | _ => none

def matchBounds (l : Line) : Option (Line × Line × Line × Line) :=
  match goM boundsItems l with
  | some [a, b, c, d] => some (a, b, c, d)
  | _ => none

/-- `MPS_NAME_SECTION_RE`: `^NAME\s+(\S.*)$`, returning the captured group.
After the literal `NAME` there must be at least one whitespace character;
the group then runs from the first non-whitespace character to the end of
the line (lines carry no embedded newline, so `.` matches every remaining
character). -/
def matchNAME (l : Line) : Option Line :=
  match l with
  | 'N' :: 'A' :: 'M' :: 'E' :: rest =>
    match rest with
    | c :: _ =>
      if isPySpace c then
        let g := rest.dropWhile isPySpace
        if g.isEmpty then none else some g
      else none
    | [] => none
  | _ => none

/-- Numeric value of a digit string. -/
def digitsVal (ds : Line) : Nat :=
  ds.foldl (fun a c => a * 10 + (c.toNat - ('0').toNat)) 0

/-- The exact value of a parsed numeric literal, in canonical decimal
form `m * 10 ^ e` with `m` never divisible by 10 (and `⟨0, 0⟩` for zero).
Canonicity makes structural equality coincide with numeric equality, so
the zero test `value != 0.0` of the source is exactly a comparison with
`⟨0, 0⟩`. -/
structure PyNum where
  m : Int
  e : Int
deriving DecidableEq

/-- The float value `0.0`. -/
def pyZero : PyNum := ⟨0, 0⟩

/-- Strip trailing `'0'` digits. -/
def stripTrailingZeros (ds : Line) : Line :=
  (ds.reverse.dropWhile (fun c => c = '0')).reverse

/-- The canonical `PyNum` denoted by sign, integer digits, fraction digits
and decimal exponent `e`. -/
def mkPyNum (sgn : Int) (ip fr : Line) (e : Int) : PyNum :=
  let ds := stripTrailingZeros (ip ++ fr)
  let shift : Int := ((ip ++ fr).length : Int) - (ds.length : Int)
  if ds.isEmpty then ⟨0, 0⟩
  else ⟨sgn * (digitsVal ds : Int), e - (fr.length : Int) + shift⟩

/-- Exponent part of a Python float literal: empty, or `[eE][+-]?digits`
consuming the whole remainder. -/
def expPart (sgn : Int) (ip fr : Line) (r : Line) : Option PyNum :=
  match r with
  | [] => some (mkPyNum sgn ip fr 0)
  | c :: t =>
    if c = 'e' || c = 'E' then
      let es : Int := match t with
        | '+' :: _ => 1
        | '-' :: _ => -1
        | _ => 1
      let t2 : Line := match t with
        | '+' :: u => u
        | '-' :: u => u
        | u => u
      let ed := t2.takeWhile Char.isDigit
      if ed.isEmpty then none
      else if (t2.drop ed.length).isEmpty then
        some (mkPyNum sgn ip fr (es * (digitsVal ed : Int)))
      else none
    else none

/-- Python `float()` restricted to tokens over the class `[0-9eE.+-]`
(no `inf`/`nan`/underscores can occur in such tokens): grammar
`[+-]? ( digits [. digits?] | . digits ) ( [eE] [+-]? digits )?`.
Returns the exact decimal value, or `none` where `float()` raises
`ValueError`.  IEEE-754 rounding/underflow of the resulting double is not
modelled; no claim below depends on it. -/
def parsePyFloat (l : Line) : Option PyNum :=
  let sgn : Int := match l with
    | '+' :: _ => 1
    | '-' :: _ => -1
    | _ => 1
  let r1 : Line := match l with
    | '+' :: t => t
    | '-' :: t => t
    | t => t
  let ip := r1.takeWhile Char.isDigit
  let r2 := r1.drop ip.length
  match r2 with
  | '.' :: t =>
    let fr := t.takeWhile Char.isDigit
    let r3 := t.drop fr.length
    if ip.isEmpty && fr.isEmpty then none else expPart sgn ip fr r3
  | _ => if ip.isEmpty then none else expPart sgn ip [] r2

/-- Lookup in a Python dict modelled as an association list: first entry
with the given key (keys are unique by construction). -/
def pyLookup [DecidableEq κ] (m : List (κ × α)) (k : κ) : Option α :=
  match m with
  | [] => none
  | (k2, v) :: t => if k2 = k then some v else pyLookup t k

/-- Python `d[k] = v`: replace the value in place if the key is present
(keys are unique, so replacing the first occurrence preserves the dict's
insertion order), otherwise append the new binding at the end. -/
def pyInsert [DecidableEq κ] (m : List (κ × α)) (k : κ) (v : α) : List (κ × α) :=
  match m with
  | [] => [(k, v)]
  | (k2, v2) :: t => if k2 = k then (k2, v) :: t else (k2, v2) :: pyInsert t k v

/-- Python `d.setdefault(k, []).append(v)` (as done by `bounds_dict`):
append `v` to the list bound to `k`, creating the binding if absent. -/
def pyAppendList [DecidableEq κ] (m : List (κ × List α)) (k : κ) (v : α) :
    List (κ × List α) :=
  match m with
  | [] => [(k, [v])]
  | (k2, l2) :: t => if k2 = k then (k2, l2 ++ [v]) :: t else (k2, l2) :: pyAppendList t k v

/-- The seventeen `MPSException` subclasses of mps.py, one constructor each. -/
inductive MPSErr
  | notMPSFile
  | noNAME
  | noROWS
  | unknownROWSType
  | badROWSData
  | unknownRow
  | noCOLUMNS
  | badCOLUMNSData
  | unknownColumn
  | noRHS
  | badRHSData
  | badRANGESData
  | unknownBOUNDSType
  | badBOUNDSData
  | noENDATA
  | noROWSData
  | noCOLUMNSData
deriving DecidableEq

/-- Everything a parse can terminate with besides a model: a named
`MPSException`, or a Python builtin exception escaping uncaught. -/
inductive Failure
  | known (e : MPSErr)
  | valueErrorFloat
  | attributeErrorNoMatch
  | keyError
deriving DecidableEq

structure RowData where
  row_id : Nat
  row_type : Line
deriving DecidableEq

structure BoundData where
  bound_type : Line
  value : PyNum
deriving DecidableEq

structure MPSSectionsData where
  name : Line
  rows_data : List Line
  columns_data : List Line
  rhs_data : List Line
  ranges_data : List Line
  bounds_data : List Line
deriving DecidableEq

/-- The immutable snapshot assembled by `CMPS.__init__`. -/
structure Model where
  name : Line
  rows : List (Line × RowData)
  columns : List (Line × Nat)
  elements : List ((Nat × Nat) × PyNum)
  rhs : List (Line × PyNum)
  ranges : List (Line × PyNum)
  bounds : List (Line × List BoundData)
deriving DecidableEq

/-- Result of a fallible computation. -/
inductive Res (α : Type)
  | ok (a : α)
  | err (f : Failure)
deriving DecidableEq

def Res.isOk {α : Type} : Res α → Bool
  | .ok _ => true
  | .err _ => false

/-- `MPS_ROW_TYPES = frozenset('NLGE')` (one-character strings). -/
def mpsRowTypes : List Line := [['N'], ['L'], ['G'], ['E']]

/-- `MPS_BOUNDS_TYPES = frozenset({'LO','UP','FX','FR','MI','PL'})`. -/
def mpsBoundsTypes : List Line :=
  [("LO".toList), ("UP".toList), ("FX".toList), ("FR".toList),
   ("MI".toList), ("PL".toList)]

/-- The section whose buffer `active_l` currently aliases. -/
inductive Sect
  | rows
  | columns
  | rhs
  | ranges
  | bounds
deriving DecidableEq

/-- Mutable state of the scanning loop in `intake_mps_file`. -/
structure ScanState where
  name : Line
  rows_l : List Line
  columns_l : List Line
  rhs_l : List Line
  ranges_l : List Line
  bounds_l : List Line
  active : Option Sect
  has_rows : Bool
  has_columns : Bool
  has_rhs : Bool
deriving DecidableEq

def initScan : ScanState := ⟨[], [], [], [], [], [], none, false, false, false⟩

/-- `active_l.append(line)`: append to the buffer `active_l` aliases, or
raise `NotMPSFileException` when `active_l` is still `None`. -/
def appendActive (st : ScanState) (l : Line) : Res ScanState :=
  match st.active with
  | none => .err (.known .notMPSFile)
  | some .rows => .ok { st with rows_l := st.rows_l ++ [l] }
  | some .columns => .ok { st with columns_l := st.columns_l ++ [l] }
  | some .rhs => .ok { st with rhs_l := st.rhs_l ++ [l] }
  | some .ranges => .ok { st with ranges_l := st.ranges_l ++ [l] }
  | some .bounds => .ok { st with bounds_l := st.bounds_l ++ [l] }

/-- Outcome of one iteration of the scanning loop. -/
inductive StepR
  | next (st : ScanState)
  | stop (st : ScanState)
  | fail (f : Failure)
deriving DecidableEq

/-- One iteration of the `for line in f` loop of `intake_mps_file`:
strip, skip blanks/comments/no-ops, recognize headers in the source's
order, `break` on `ENDATA`, otherwise append to the active buffer. -/
def scanStep (st : ScanState) (raw : Line) : StepR :=
  let line := pyStrip raw
  if line.isEmpty || line.head? = some '*' || line.head? = some '&' then .next st
  else if (matchNAME line).isSome then .next { st with name := line }
  else if line = ("ROWS".toList) then
    .next { st with active := some .rows, has_rows := true }
  else if line = ("COLUMNS".toList) then
    .next { st with active := some .columns, has_columns := true }
  else if line = ("RHS".toList) then
    .next { st with active := some .rhs, has_rhs := true }
  else if line = ("RANGES".toList) then .next { st with active := some .ranges }
  else if line = ("BOUNDS".toList) then .next { st with active := some .bounds }
  else if line = ("ENDATA".toList) then .stop st
  else
    match appendActive st line with
    | .ok st2 => .next st2
    | .err f => .fail f

/-- The scanning loop; the boolean records `has_endata`. -/
def intakeGo : ScanState → List Line → Res (ScanState × Bool)
  | st, [] => .ok (st, false)
  | st, l :: ls =>
    match scanStep st l with
    | .next st2 => intakeGo st2 ls
    | .stop st2 => .ok (st2, true)
    | .fail f => .err f

/-- `intake_mps_file`, with the file contents given as its list of lines:
scan, then the chain of presence checks, then package the section data. -/
def intakeMPSLines (lines : List Line) : Res MPSSectionsData :=
  match intakeGo initScan lines with
  | .err f => .err f
  | .ok (st, hasEnd) =>
    if st.name.isEmpty then .err (.known .noNAME)
    else if !st.has_rows then .err (.known .noROWS)
    else if !st.has_columns then .err (.known .noCOLUMNS)
    else if !st.has_rhs then .err (.known .noRHS)
    else if !hasEnd then .err (.known .noENDATA)
    else if st.rows_l.isEmpty then .err (.known .noROWSData)
    else if st.columns_l.isEmpty then .err (.known .noCOLUMNSData)
    else .ok ⟨st.name, st.rows_l, st.columns_l, st.rhs_l, st.ranges_l, st.bounds_l⟩

/-- `process_NAME`: re-match the stored NAME line and take group 1;
`.group(1)` on a failed match would raise `AttributeError`. -/
def processNAME (l : Line) : Res Line :=
  match matchNAME l with
  | some g => .ok g
  | none => .err .attributeErrorNoMatch

/-- Loop body of `process_ROWS`; `id` is `current_row_id`. -/
def processROWSgo (acc : List (Line × RowData)) (id : Nat) :
    List Line → Res (List (Line × RowData))
  | [] => .ok acc
  | l :: ls =>
    match matchRowsData l with
    | some (g1, g2) =>
      if g1 ∈ mpsRowTypes then
        processROWSgo (pyInsert acc g2 ⟨id, g1⟩) (id + 1) ls
      else .err (.known .unknownROWSType)
    | none => .err (.known .badROWSData)

/-- `process_ROWS`. -/
def processROWS (data : List Line) : Res (List (Line × RowData)) :=
  processROWSgo [] 0 data

/-- Loop body of `process_COLUMNS`; `id` is `current_column_id`.  The
2-pair branch checks both rows, then registers the column, then converts
and conditionally stores each value; the 1-pair branch registers the
column before checking the row, exactly as in the source. -/
def processCOLUMNSgo (rows : List (Line × RowData)) (cols : List (Line × Nat))
    (elems : List ((Nat × Nat) × PyNum)) (id : Nat) :
    List Line → Res (List (Line × Nat) × List ((Nat × Nat) × PyNum))
  | [] => .ok (cols, elems)
  | l :: ls =>
    match match2Pair l with
    | some (cn, r1, v1s, r2, v2s) =>
      match pyLookup rows r1 with
      | none => .err (.known .unknownRow)
      | some rd1 =>
        match pyLookup rows r2 with
        | none => .err (.known .unknownRow)
        | some rd2 =>
          let cols2 := if (pyLookup cols cn).isSome then cols else pyInsert cols cn id
          let id2 := if (pyLookup cols cn).isSome then id else id + 1
          match pyLookup cols2 cn with
          | none => .err .keyError
          | some cid =>
            match parsePyFloat v1s with
            | none => .err .valueErrorFloat
            | some x1 =>
              let elems1 := if x1 ≠ pyZero then pyInsert elems (rd1.row_id, cid) x1 else elems
              match parsePyFloat v2s with
              | none => .err .valueErrorFloat
              | some x2 =>
                let elems2 :=
                  if x2 ≠ pyZero then pyInsert elems1 (rd2.row_id, cid) x2 else elems1
                processCOLUMNSgo rows cols2 elems2 id2 ls
    | none =>
      match match1Pair l with
      | some (cn, rn, vs) =>
        let cols2 := if (pyLookup cols cn).isSome then cols else pyInsert cols cn id
        let id2 := if (pyLookup cols cn).isSome then id else id + 1
        match pyLookup cols2 cn with
        | none => .err .keyError
        | some cid =>
          match pyLookup rows rn with
          | none => .err (.known .unknownRow)
          | some rd =>
            match parsePyFloat vs with
            | none => .err .valueErrorFloat
            | some x =>
              let elems2 := if x ≠ pyZero then pyInsert elems (rd.row_id, cid) x else elems
              processCOLUMNSgo rows cols2 elems2 id2 ls
      | none => .err (.known .badCOLUMNSData)

/-- `process_COLUMNS`. -/
def processCOLUMNS (data : List Line) (rows : List (Line × RowData)) :
    Res (List (Line × Nat) × List ((Nat × Nat) × PyNum)) :=
  processCOLUMNSgo rows [] [] 0 data

/-- Loop body of `process_RHS`; `vname` is `rhs_name`.  The source sets
`rhs_name` on the first named match and breaks when a later named match
carries a different group 1; in both continue-cases the name to carry
forward equals group 1, so the recursion passes `g1`.  The two EXTRA
(vector-name-omitted) forms never touch `rhs_name`. -/
def processRHSgo (rows : List (Line × RowData)) (acc : List (Line × PyNum))
    (vname : Line) : List Line → Res (List (Line × PyNum))
  | [] => .ok acc
  | l :: ls =>
    match match2Pair l with
    | some (g1, r1, v1s, r2, v2s) =>
      if vname = [] ∨ g1 = vname then
        match pyLookup rows r1 with
        | none => .err (.known .unknownRow)
        | some _ =>
          match pyLookup rows r2 with
          | none => .err (.known .unknownRow)
          | some _ =>
            match parsePyFloat v1s with
            | none => .err .valueErrorFloat
            | some x1 =>
              match parsePyFloat v2s with
              | none => .err .valueErrorFloat
              | some x2 =>
                processRHSgo rows (pyInsert (pyInsert acc r1 x1) r2 x2) g1 ls
      else .ok acc
    | none =>
      match match1Pair l with
      | some (g1, rn, vs) =>
        if vname = [] ∨ g1 = vname then
          match pyLookup rows rn with
          | none => .err (.known .unknownRow)
          | some _ =>
            match parsePyFloat vs with
            | none => .err .valueErrorFloat
            | some x => processRHSgo rows (pyInsert acc rn x) g1 ls
        else .ok acc
      | none =>
        match matchRHS2Extra l with
        | some (r1, v1s, r2, v2s) =>
          match pyLookup rows r1 with
          | none => .err (.known .unknownRow)
          | some _ =>
            match pyLookup rows r2 with
            | none => .err (.known .unknownRow)
            | some _ =>
              match parsePyFloat v1s with
              | none => .err .valueErrorFloat
              | some x1 =>
                match parsePyFloat v2s with
                | none => .err .valueErrorFloat
                | some x2 =>
                  processRHSgo rows (pyInsert (pyInsert acc r1 x1) r2 x2) vname ls
        | none =>
          match matchRHS1Extra l with
          | some (rn, vs) =>
            match pyLookup rows rn with
            | none => .err (.known .unknownRow)
            | some _ =>
              match parsePyFloat vs with
              | none => .err .valueErrorFloat
              | some x => processRHSgo rows (pyInsert acc rn x) vname ls
          | none => .err (.known .badRHSData)

/-- `process_RHS`. -/
def processRHS (data : List Line) (rows : List (Line × RowData)) :
    Res (List (Line × PyNum)) :=
  processRHSgo rows [] [] data

/-- Loop body of `process_RANGES`; `vname` is `ranges_name`. -/
def processRANGESgo (rows : List (Line × RowData)) (acc : List (Line × PyNum))
    (vname : Line) : List Line → Res (List (Line × PyNum))
  | [] => .ok acc
  | l :: ls =>
    match matchRanges2 l with
    | some (g1, r1, v1s, r2, v2s) =>
      if vname = [] ∨ g1 = vname then
        match pyLookup rows r1 with
        | none => .err (.known .unknownRow)
        | some _ =>
          match pyLookup rows r2 with
          | none => .err (.known .unknownRow)
          | some _ =>
            match parsePyFloat v1s with
            | none => .err .valueErrorFloat
            | some x1 =>
              match parsePyFloat v2s with
              | none => .err .valueErrorFloat
              | some x2 =>
                processRANGESgo rows (pyInsert (pyInsert acc r1 x1) r2 x2) g1 ls
      else .ok acc
    | none =>
      match matchRanges1 l with
      | some (g1, rn, vs) =>
        if vname = [] ∨ g1 = vname then
          match pyLookup rows rn with
          | none => .err (.known .unknownRow)
          | some _ =>
            match parsePyFloat vs with
            | none => .err .valueErrorFloat
            | some x => processRANGESgo rows (pyInsert acc rn x) g1 ls
        else .ok acc
      | none => .err (.known .badRANGESData)

/-- `process_RANGES`. -/
def processRANGES (data : List Line) (rows : List (Line × RowData)) :
    Res (List (Line × PyNum)) :=
  processRANGESgo rows [] [] data

/-- Loop body of `process_BOUNDS`; `vname` is `bounds_name`.  The source
validates the bound type before the vector-name logic, then resolves the
column, converts the value and appends. -/
def processBOUNDSgo (cols : List (Line × Nat)) (acc : List (Line × List BoundData))
    (vname : Line) : List Line → Res (List (Line × List BoundData))
  | [] => .ok acc
  | l :: ls =>
    match matchBounds l with
    | some (bt, g2, cn, vs) =>
      if bt ∈ mpsBoundsTypes then
        if vname = [] ∨ g2 = vname then
          match pyLookup cols cn with
          | none => .err (.known .unknownColumn)
          | some _ =>
            match parsePyFloat vs with
            | none => .err .valueErrorFloat
            | some x => processBOUNDSgo cols (pyAppendList acc cn ⟨bt, x⟩) g2 ls
        else .ok acc
      else .err (.known .unknownBOUNDSType)
    | none => .err (.known .badBOUNDSData)

/-- `process_BOUNDS`. -/
def processBOUNDS (data : List Line) (cols : List (Line × Nat)) :
    Res (List (Line × List BoundData)) :=
  processBOUNDSgo cols [] [] data

/-- `CMPS.__init__` as a pure function on the file's lines: intake, then
the processor chain, skipping RHS/RANGES/BOUNDS processing when the
corresponding buffer is empty, finally the immutable snapshot. -/
def parseMPS (lines : List Line) : Res Model :=
  match intakeMPSLines lines with
  | .err f => .err f
  | .ok d =>
    match processNAME d.name with
    | .err f => .err f
    | .ok pname =>
      match processROWS d.rows_data with
      | .err f => .err f
      | .ok rows =>
        match processCOLUMNS d.columns_data rows with
        | .err f => .err f
        | .ok (cols, elems) =>
          match (if d.rhs_data.isEmpty then Res.ok [] else processRHS d.rhs_data rows) with
          | .err f => .err f
          | .ok rhs =>
            match (if d.ranges_data.isEmpty then Res.ok []
                   else processRANGES d.ranges_data rows) with
            | .err f => .err f
            | .ok ranges =>
              match (if d.bounds_data.isEmpty then Res.ok []
                     else processBOUNDS d.bounds_data cols) with
              | .err f => .err f
              | .ok bounds => .ok ⟨pname, rows, cols, elems, rhs, ranges, bounds⟩

/-! ### Specification-side helper functions

Transparent re-statements of single aspects of the parser, used to phrase
the claims: name extraction per line, first-seen order, file-order bound
extraction, and the last-occurrence row entry. -/

/-- The row name captured by a ROWS data line (group 2). -/
def rowNameOf (l : Line) : Option Line :=
  (matchRowsData l).map (fun p => p.2)

/-- The column name captured by a COLUMNS data line (group 1 of whichever
layout matches first, 2-pair before 1-pair). -/
def colNameOf (l : Line) : Option Line :=
  match match2Pair l with
  | some (cn, _, _, _, _) => some cn
  | none => (match1Pair l).map (fun p => p.1)

/-- The vector-name token of a named RHS data line (group 1 of the 2-pair
or 1-pair layout; the EXTRA layouts carry no vector name). -/
def rhsVecNameOf (l : Line) : Option Line :=
  match match2Pair l with
  | some (g1, _, _, _, _) => some g1
  | none => (match1Pair l).map (fun p => p.1)

/-- The vector-name token of a RANGES data line (group 1). -/
def rangesVecNameOf (l : Line) : Option Line :=
  match matchRanges2 l with
  | some (g1, _, _, _, _) => some g1
  | none => (matchRanges1 l).map (fun p => p.1)

/-- Names in first-seen order: fold that appends a name when it has not
been seen yet. -/
def seenFold (acc : List Line) (names : List Line) : List Line :=
  names.foldl (fun a n => if n ∈ a then a else a ++ [n]) acc

/-- The bound entries that the lines `p` state for column `c`, in file
order. -/
def boundsExtract (c : Line) (p : List Line) : List BoundData :=
  p.filterMap (fun l =>
    match matchBounds l with
    | some (bt, _, cn, vs) =>
      if cn = c then (parsePyFloat vs).map (fun v => (⟨bt, v⟩ : BoundData)) else none
    | none => none)

/-- The bound list recorded for a column (empty when the column has no
binding). -/
def bdGet (m : List (Line × List BoundData)) (c : Line) : List BoundData :=
  (pyLookup m c).getD []

/-- Direct scan for the row entry produced by the LAST data line naming
`n`, starting at row id `i`: the id is the line's position, the type is
that line's group 1. -/
def lastRowScan (n : Line) : List Line → Nat → Option RowData
  | [], _ => none
  | l :: ls, i =>
    match matchRowsData l with
    | some (g1, g2) =>
      match lastRowScan n ls (i + 1) with
      | some rd => some rd
      | none => if g2 = n then some ⟨i, g1⟩ else none
    | none => none

/-- A line the scanner skips: blank after stripping, a `*` comment, or a
`&` no-op. -/
def skipLine (l : Line) : Prop :=
  pyStrip l = [] ∨ (pyStrip l).head? = some '*' ∨ (pyStrip l).head? = some '&'

instance (l : Line) : Decidable (skipLine l) := by
  unfold skipLine; infer_instance

/-- A line that matches one of the seven section-header patterns. -/
def headerLine (l : Line) : Prop :=
  (matchNAME (pyStrip l)).isSome = true ∨ pyStrip l = ("ROWS".toList) ∨
  pyStrip l = ("COLUMNS".toList) ∨ pyStrip l = ("RHS".toList) ∨
  pyStrip l = ("RANGES".toList) ∨ pyStrip l = ("BOUNDS".toList) ∨
  pyStrip l = ("ENDATA".toList)

instance (l : Line) : Decidable (headerLine l) := by
  unfold headerLine; infer_instance

/-! ### Concrete documents used by the claims -/

/-- A document whose headers are all present but out of the order the spec
demands: ROWS before NAME, BOUNDS before RHS, NAME in the middle. -/
def c1doc : List Line :=
  [("ROWS".toList), ("N OBJ".toList), ("L C1".toList),
   ("COLUMNS".toList), ("X OBJ 1.0".toList), ("X C1 2.0".toList),
   ("NAME  TESTX".toList),
   ("BOUNDS".toList), ("UP BND X 4.0".toList),
   ("RHS".toList), ("R C1 5.0".toList),
   ("ENDATA".toList)]

/-- The model `c1doc` parses to. -/
def c1model : Model :=
  ⟨("TESTX".toList),
   [(("OBJ".toList), ⟨0, ['N']⟩), (("C1".toList), ⟨1, ['L']⟩)],
   [(("X".toList), 0)],
   [((0, 0), ⟨1, 0⟩), ((1, 0), ⟨2, 0⟩)],
   [(("C1".toList), ⟨5, 0⟩)],
   [],
   [(("X".toList), [⟨("UP".toList), ⟨4, 0⟩⟩])]⟩

/-- A document whose ROWS section defines the row name `R` twice. -/
def c2doc : List Line :=
  [("NAME T".toList), ("ROWS".toList), ("N R".toList), ("L R".toList),
   ("COLUMNS".toList), ("X R 1.0".toList), ("RHS".toList), ("ENDATA".toList)]

/-- The model `c2doc` parses to: the second `R` line overwrote the first,
so the single row `R` carries id 1 and type `L`. -/
def c2model : Model :=
  ⟨['T'],
   [(['R'], ⟨1, ['L']⟩)],
   [(['X'], 0)],
   [((1, 0), ⟨1, 0⟩)],
   [], [], []⟩

/-- A document with a COLUMNS coefficient stated as exactly `0.0`. -/
def c3doc : List Line :=
  [("NAME T".toList), ("ROWS".toList), ("N OBJ".toList), ("L C1".toList),
   ("COLUMNS".toList), ("X OBJ 0.0 C1 3.0".toList), ("RHS".toList),
   ("ENDATA".toList)]

/-- The model `c3doc` parses to: the zero coefficient was discarded. -/
def c3model : Model :=
  ⟨['T'],
   [(("OBJ".toList), ⟨0, ['N']⟩), (("C1".toList), ⟨1, ['L']⟩)],
   [(['X'], 0)],
   [((1, 0), ⟨3, 0⟩)],
   [], [], []⟩

/-- A document whose COLUMNS value token `.` matches the numeric character
class but is not a valid float literal. -/
def c4doc : List Line :=
  [("NAME T".toList), ("ROWS".toList), ("N OBJ".toList),
   ("COLUMNS".toList), ("X OBJ .".toList), ("RHS".toList), ("ENDATA".toList)]

/-- A one-row table used by the RHS/RANGES line-layout claims. -/
def rowsR1 : List (Line × RowData) := [(("R1".toList), ⟨0, ['N']⟩)]

/-- Document whose RHS section changes vector name mid-section; the line
carrying the new name and everything after it inside the RHS buffer is
dropped. -/
def c6docA : List Line :=
  [("NAME T".toList), ("ROWS".toList), ("N OBJ".toList), ("G R2".toList),
   ("COLUMNS".toList), ("X OBJ 1.0".toList),
   ("RHS".toList), ("RHS1 OBJ 2.0".toList), ("RHS2 R2 3.0".toList),
   ("RANGES".toList), ("RNG R2 4.0".toList), ("ENDATA".toList)]

/-- `c6docA` without the boundary-crossing RHS line. -/
def c6docB : List Line :=
  [("NAME T".toList), ("ROWS".toList), ("N OBJ".toList), ("G R2".toList),
   ("COLUMNS".toList), ("X OBJ 1.0".toList),
   ("RHS".toList), ("RHS1 OBJ 2.0".toList),
   ("RANGES".toList), ("RNG R2 4.0".toList), ("ENDATA".toList)]

/-- A well-formed document used to instantiate the dense-id claim. -/
def c8doc : List Line :=
  [("NAME T".toList), ("ROWS".toList), ("N OBJ".toList), ("L C1".toList),
   ("COLUMNS".toList), ("X OBJ 1.0".toList), ("Y C1 2.0".toList),
   ("X C1 3.0".toList), ("RHS".toList), ("ENDATA".toList)]

/-- The section data the scanner extracts from `c8doc`. -/
def c8sections : MPSSectionsData :=
  ⟨("NAME T".toList),
   [("N OBJ".toList), ("L C1".toList)],
   [("X OBJ 1.0".toList), ("Y C1 2.0".toList), ("X C1 3.0".toList)],
   [], [], []⟩

/-- The model `c8doc` parses to. -/
def c8model : Model :=
  ⟨['T'],
   [(("OBJ".toList), ⟨0, ['N']⟩), (("C1".toList), ⟨1, ['L']⟩)],
   [(['X'], 0), (['Y'], 1)],
   [((0, 0), ⟨1, 0⟩), ((1, 1), ⟨2, 0⟩), ((1, 0), ⟨3, 0⟩)],
   [], [], []⟩

/-- BOUNDS data giving column `X` a lower then an upper bound. -/
def c9data : List Line := [("LO BND X 1.0".toList), ("UP BND X 4.0".toList)]

def c9cols : List (Line × Nat) := [(("X".toList), 0)]

/-- The bounds dict `c9data` produces. -/
def c9bounds : List (Line × List BoundData) :=
  [(("X".toList), [⟨("LO".toList), ⟨1, 0⟩⟩, ⟨("UP".toList), ⟨4, 0⟩⟩])]

/-- Common prefix used to instantiate the ENDATA-cutoff claim. -/
def c10pre : List Line :=
  [("NAME T".toList), ("ROWS".toList), ("N R".toList),
   ("COLUMNS".toList), ("X R 1.0".toList), ("RHS".toList)]

/-! ### Association-list (Python dict) lemmas -/

theorem pyLookup_pyInsert [DecidableEq κ] (m : List (κ × α)) (k c : κ) (v : α) :
    pyLookup (pyInsert m k v) c = if k = c then some v else pyLookup m c := by
  induction m with
  | nil => simp [pyInsert, pyLookup]
  | cons p t ih =>
    obtain ⟨k2, v2⟩ := p
    by_cases h : k2 = k
    · subst h
      by_cases hc : k2 = c <;> simp [pyInsert, pyLookup, hc]
    · by_cases hc : k2 = c
      · subst hc
        have h2 : ¬ k = k2 := fun hh => h hh.symm
        simp [pyInsert, pyLookup, h, h2]
      · simp [pyInsert, pyLookup, h, hc, ih]

theorem pyInsert_of_lookup_none [DecidableEq κ] (m : List (κ × α)) (k : κ) (v : α)
    (h : pyLookup m k = none) : pyInsert m k v = m ++ [(k, v)] := by
  induction m with
  | nil => simp [pyInsert]
  | cons p t ih =>
    obtain ⟨k2, v2⟩ := p
    by_cases hk : k2 = k
    · simp [pyLookup, hk] at h
    · simp [pyLookup, hk] at h
      simp [pyInsert, hk, ih h]

theorem pyLookup_pyAppendList [DecidableEq κ] (m : List (κ × List α)) (k c : κ)
    (b : α) :
    pyLookup (pyAppendList m k b) c =
      if k = c then some ((pyLookup m k).getD [] ++ [b]) else pyLookup m c := by
  induction m with
  | nil => simp [pyAppendList, pyLookup]
  | cons p t ih =>
    obtain ⟨k2, l2⟩ := p
    by_cases h : k2 = k
    · subst h
      by_cases hc : k2 = c <;> simp [pyAppendList, pyLookup, hc]
    · by_cases hc : k2 = c
      · subst hc
        have h2 : ¬ k = k2 := fun hh => h hh.symm
        simp [pyAppendList, pyLookup, h, h2]
      · simp [pyAppendList, pyLookup, h, hc, ih]

theorem pyLookup_isSome_iff [DecidableEq κ] (m : List (κ × α)) (k : κ) :
    (pyLookup m k).isSome = true ↔ k ∈ m.map (fun p => p.1) := by
  induction m with
  | nil => simp [pyLookup]
  | cons p t ih =>
    obtain ⟨k2, v2⟩ := p
    by_cases h : k2 = k
    · subst h
      simp [pyLookup]
    · have h2 : ¬ k = k2 := fun hh => h hh.symm
      simp [pyLookup, h, h2, ih]

theorem pyLookup_eq_none_iff [DecidableEq κ] (m : List (κ × α)) (k : κ) :
    pyLookup m k = none ↔ k ∉ m.map (fun p => p.1) := by
  rw [← pyLookup_isSome_iff]
  cases pyLookup m k <;> simp

/-! ### ROWS processor lemmas -/

theorem rowsGo_lastWins (data : List Line) :
    ∀ (acc : List (Line × RowData)) (id : Nat) (m : List (Line × RowData)),
      processROWSgo acc id data = .ok m → ∀ n : Line,
        pyLookup m n =
          match lastRowScan n data id with
          | some rd => some rd
          | none => pyLookup acc n := by
  induction data with
  | nil =>
    intro acc id m h n
    simp only [processROWSgo] at h
    cases h
    simp [lastRowScan]
  | cons l ls ih =>
    intro acc id m h n
    simp only [processROWSgo] at h
    cases hm : matchRowsData l with
    | none => rw [hm] at h; cases h
    | some g =>
      obtain ⟨g1, g2⟩ := g
      rw [hm] at h
      dsimp only at h
      by_cases ht : g1 ∈ mpsRowTypes
      · rw [if_pos ht] at h
        have := ih (pyInsert acc g2 ⟨id, g1⟩) (id + 1) m h n
        rw [this]
        simp only [lastRowScan, hm]
        cases lastRowScan n ls (id + 1) with
        | some rd => simp
        | none =>
          simp only [pyLookup_pyInsert]
          by_cases hg : g2 = n
          · simp [hg]
          · simp [hg]
      · rw [if_neg ht] at h; cases h

theorem rowsGo_dense (data : List Line) :
    ∀ (acc : List (Line × RowData)) (m : List (Line × RowData)),
      processROWSgo acc acc.length data = .ok m →
      (acc.map (fun p => p.1) ++ data.filterMap rowNameOf).Nodup →
      acc.map (fun p => p.2.row_id) = List.range acc.length →
      m.map (fun p => p.2.row_id) = List.range m.length ∧
        m.map (fun p => p.1) = acc.map (fun p => p.1) ++ data.filterMap rowNameOf := by
  induction data with
  | nil =>
    intro acc m h _ hids
    simp only [processROWSgo] at h
    cases h
    simpa using hids
  | cons l ls ih =>
    intro acc m h hnd hids
    simp only [processROWSgo] at h
    cases hm : matchRowsData l with
    | none => rw [hm] at h; cases h
    | some g =>
      obtain ⟨g1, g2⟩ := g
      rw [hm] at h
      dsimp only at h
      by_cases ht : g1 ∈ mpsRowTypes
      · rw [if_pos ht] at h
        have hname : rowNameOf l = some g2 := by simp [rowNameOf, hm]
        rw [List.filterMap_cons, hname] at hnd ⊢
        have hg2 : g2 ∉ acc.map (fun p => p.1) := by
          intro hmem
          exact (List.nodup_append.mp hnd).2.2 hmem (List.mem_cons_self g2 _)
        have hnone : pyLookup acc g2 = none := (pyLookup_eq_none_iff acc g2).mpr hg2
        rw [pyInsert_of_lookup_none acc g2 _ hnone] at h
        have hlen : (acc ++ [(g2, (⟨acc.length, g1⟩ : RowData))]).length = acc.length + 1 := by
          simp
        rw [← hlen] at h
        have hnd2 : ((acc ++ [(g2, (⟨acc.length, g1⟩ : RowData))]).map (fun p => p.1) ++
            ls.filterMap rowNameOf).Nodup := by
          simpa [List.append_assoc] using hnd
        have hids2 : (acc ++ [(g2, (⟨acc.length, g1⟩ : RowData))]).map (fun p => p.2.row_id) =
            List.range (acc ++ [(g2, (⟨acc.length, g1⟩ : RowData))]).length := by
          simp [hids, List.range_succ]
        obtain ⟨h1, h2⟩ := ih _ m h hnd2 hids2
        refine ⟨h1, ?_⟩
        rw [h2]
        simp [List.append_assoc]
      · rw [if_neg ht] at h; cases h

/-! ### COLUMNS processor lemmas -/

theorem nonzero_preserve (elems : List ((Nat × Nat) × PyNum)) (key : Nat × Nat)
    (x : PyNum) (hx : x ≠ pyZero)
    (hinv : ∀ k v, pyLookup elems k = some v → v ≠ pyZero) :
    ∀ k v, pyLookup (pyInsert elems key x) k = some v → v ≠ pyZero := by
  intro k v hv
  rw [pyLookup_pyInsert] at hv
  by_cases hk : key = k
  · rw [if_pos hk] at hv
    cases hv
    exact hx
  · rw [if_neg hk] at hv
    exact hinv k v hv

theorem nonzero_preserve_ite (elems : List ((Nat × Nat) × PyNum)) (key : Nat × Nat)
    (x : PyNum) (hinv : ∀ k v, pyLookup elems k = some v → v ≠ pyZero) :
    ∀ k v, pyLookup (if x ≠ pyZero then pyInsert elems key x else elems) k = some v →
      v ≠ pyZero := by
  by_cases hx : x ≠ pyZero
  · rw [if_pos hx]
    exact nonzero_preserve elems key x hx hinv
  · rw [if_neg hx]
    exact hinv

theorem colsGo_nonzero (data : List Line) :
    ∀ (rows : List (Line × RowData)) (cols : List (Line × Nat))
      (elems : List ((Nat × Nat) × PyNum)) (id : Nat)
      (m1 : List (Line × Nat)) (m2 : List ((Nat × Nat) × PyNum)),
      processCOLUMNSgo rows cols elems id data = .ok (m1, m2) →
      (∀ k v, pyLookup elems k = some v → v ≠ pyZero) →
      ∀ k v, pyLookup m2 k = some v → v ≠ pyZero := by
  induction data with
  | nil =>
    intro rows cols elems id m1 m2 h hinv
    simp only [processCOLUMNSgo] at h
    cases h
    exact hinv
  | cons l ls ih =>
    intro rows cols elems id m1 m2 h hinv
    simp only [processCOLUMNSgo] at h
    cases h2 : match2Pair l with
    | some g =>
      obtain ⟨cn, r1, v1s, r2, v2s⟩ := g
      rw [h2] at h
      dsimp only at h
      cases hr1 : pyLookup rows r1 with
      | none => rw [hr1] at h; cases h
      | some rd1 =>
        rw [hr1] at h
        dsimp only at h
        cases hr2 : pyLookup rows r2 with
        | none => rw [hr2] at h; cases h
        | some rd2 =>
          rw [hr2] at h
          dsimp only at h
          cases hcid : pyLookup
              (if (pyLookup cols cn).isSome = true then cols else pyInsert cols cn id) cn with
          | none => rw [hcid] at h; cases h
          | some cid =>
            rw [hcid] at h
            dsimp only at h
            cases hx1 : parsePyFloat v1s with
            | none => rw [hx1] at h; cases h
            | some x1 =>
              rw [hx1] at h
              dsimp only at h
              cases hx2 : parsePyFloat v2s with
              | none => rw [hx2] at h; cases h
              | some x2 =>
                rw [hx2] at h
                dsimp only at h
                refine ih _ _ _ _ _ _ h ?_
                exact nonzero_preserve_ite _ _ _
                  (nonzero_preserve_ite _ _ _ hinv)
    | none =>
      rw [h2] at h
      dsimp only at h
      cases h1 : match1Pair l with
      | none => rw [h1] at h; cases h
      | some g =>
        obtain ⟨cn, rn, vs⟩ := g
        rw [h1] at h
        dsimp only at h
        cases hcid : pyLookup
            (if (pyLookup cols cn).isSome = true then cols else pyInsert cols cn id) cn with
        | none => rw [hcid] at h; cases h
        | some cid =>
          rw [hcid] at h
          dsimp only at h
          cases hrn : pyLookup rows rn with
          | none => rw [hrn] at h; cases h
          | some rd =>
            rw [hrn] at h
            dsimp only at h
            cases hx : parsePyFloat vs with
            | none => rw [hx] at h; cases h
            | some x =>
              rw [hx] at h
              dsimp only at h
              refine ih _ _ _ _ _ _ h ?_
              exact nonzero_preserve_ite _ _ _ hinv

theorem colsGo_dense (data : List Line) :
    ∀ (rows : List (Line × RowData)) (cols : List (Line × Nat))
      (elems : List ((Nat × Nat) × PyNum))
      (m1 : List (Line × Nat)) (m2 : List ((Nat × Nat) × PyNum)),
      processCOLUMNSgo rows cols elems cols.length data = .ok (m1, m2) →
      cols.map (fun p => p.2) = List.range cols.length →
      m1.map (fun p => p.2) = List.range m1.length ∧
        m1.map (fun p => p.1) =
          seenFold (cols.map (fun p => p.1)) (data.filterMap colNameOf) := by
  induction data with
  | nil =>
    intro rows cols elems m1 m2 h hids
    simp only [processCOLUMNSgo] at h
    cases h
    simpa [seenFold] using hids
  | cons l ls ih =>
    intro rows cols elems m1 m2 h hids
    simp only [processCOLUMNSgo] at h
    cases h2 : match2Pair l with
    | some g =>
      obtain ⟨cn, r1, v1s, r2, v2s⟩ := g
      have hcol : colNameOf l = some cn := by simp [colNameOf, h2]
      rw [h2] at h
      dsimp only at h
      cases hr1 : pyLookup rows r1 with
      | none => rw [hr1] at h; cases h
      | some rd1 =>
        rw [hr1] at h
        dsimp only at h
        cases hr2 : pyLookup rows r2 with
        | none => rw [hr2] at h; cases h
        | some rd2 =>
          rw [hr2] at h
          dsimp only at h
          by_cases hc : (pyLookup cols cn).isSome = true
          · rw [if_pos hc, if_pos hc] at h
            have hmem : cn ∈ cols.map (fun p => p.1) := (pyLookup_isSome_iff cols cn).mp hc
            cases hcid : pyLookup cols cn with
            | none => rw [hcid] at hc; simp at hc
            | some cid =>
              rw [hcid] at h
              dsimp only at h
              cases hx1 : parsePyFloat v1s with
              | none => rw [hx1] at h; cases h
              | some x1 =>
                rw [hx1] at h
                dsimp only at h
                cases hx2 : parsePyFloat v2s with
                | none => rw [hx2] at h; cases h
                | some x2 =>
                  rw [hx2] at h
                  dsimp only at h
                  have := ih _ _ _ _ _ h hids
                  simpa [seenFold, hmem, List.filterMap_cons, hcol] using this
          · have hnone : pyLookup cols cn = none := by
              cases ho : pyLookup cols cn
              · rfl
              · rw [ho] at hc; simp at hc
            rw [if_neg hc, if_neg hc] at h
            have hmem : cn ∉ cols.map (fun p => p.1) := (pyLookup_eq_none_iff cols cn).mp hnone
            rw [pyInsert_of_lookup_none cols cn _ hnone] at h
            have hlen : cols.length + 1 = (cols ++ [(cn, cols.length)]).length := by simp
            rw [hlen] at h
            cases hcid : pyLookup (cols ++ [(cn, cols.length)]) cn with
            | none => rw [hcid] at h; cases h
            | some cid =>
              rw [hcid] at h
              dsimp only at h
              cases hx1 : parsePyFloat v1s with
              | none => rw [hx1] at h; cases h
              | some x1 =>
                rw [hx1] at h
                dsimp only at h
                cases hx2 : parsePyFloat v2s with
                | none => rw [hx2] at h; cases h
                | some x2 =>
                  rw [hx2] at h
                  dsimp only at h
                  have hids2 : (cols ++ [(cn, cols.length)]).map (fun p => p.2) =
                      List.range (cols ++ [(cn, cols.length)]).length := by
                    simp [hids, List.range_succ]
                  have := ih _ _ _ _ _ h hids2
                  simpa [seenFold, hmem, List.filterMap_cons, hcol] using this
    | none =>
      rw [h2] at h
      dsimp only at h
      cases h1 : match1Pair l with
      | none => rw [h1] at h; cases h
      | some g =>
        obtain ⟨cn, rn, vs⟩ := g
        have hcol : colNameOf l = some cn := by simp [colNameOf, h2, h1]
        rw [h1] at h
        dsimp only at h
        by_cases hc : (pyLookup cols cn).isSome = true
        · rw [if_pos hc, if_pos hc] at h
          have hmem : cn ∈ cols.map (fun p => p.1) := (pyLookup_isSome_iff cols cn).mp hc
          cases hcid : pyLookup cols cn with
          | none => rw [hcid] at hc; simp at hc
          | some cid =>
            rw [hcid] at h
            dsimp only at h
            cases hrn : pyLookup rows rn with
            | none => rw [hrn] at h; cases h
            | some rd =>
              rw [hrn] at h
              dsimp only at h
              cases hx : parsePyFloat vs with
              | none => rw [hx] at h; cases h
              | some x =>
                rw [hx] at h
                dsimp only at h
                have := ih _ _ _ _ _ h hids
                simpa [seenFold, hmem, List.filterMap_cons, hcol] using this
        · have hnone : pyLookup cols cn = none := by
            cases ho : pyLookup cols cn
            · rfl
            · rw [ho] at hc; simp at hc
          rw [if_neg hc, if_neg hc] at h
          have hmem : cn ∉ cols.map (fun p => p.1) := (pyLookup_eq_none_iff cols cn).mp hnone
          rw [pyInsert_of_lookup_none cols cn _ hnone] at h
          have hlen : cols.length + 1 = (cols ++ [(cn, cols.length)]).length := by simp
          rw [hlen] at h
          cases hcid : pyLookup (cols ++ [(cn, cols.length)]) cn with
          | none => rw [hcid] at h; cases h
          | some cid =>
            rw [hcid] at h
            dsimp only at h
            cases hrn : pyLookup rows rn with
            | none => rw [hrn] at h; cases h
            | some rd =>
              rw [hrn] at h
              dsimp only at h
              cases hx : parsePyFloat vs with
              | none => rw [hx] at h; cases h
              | some x =>
                rw [hx] at h
                dsimp only at h
                have hids2 : (cols ++ [(cn, cols.length)]).map (fun p => p.2) =
                    List.range (cols ++ [(cn, cols.length)]).length := by
                  simp [hids, List.range_succ]
                have := ih _ _ _ _ _ h hids2
                simpa [seenFold, hmem, List.filterMap_cons, hcol] using this

/-! ### BOUNDS processor lemmas -/

theorem boundsGo_order (data : List Line) :
    ∀ (cols : List (Line × Nat)) (acc : List (Line × List BoundData)) (vn : Line)
      (m : List (Line × List BoundData)),
      processBOUNDSgo cols acc vn data = .ok m →
      ∃ n, ∀ c, bdGet m c = bdGet acc c ++ boundsExtract c (data.take n) := by
  induction data with
  | nil =>
    intro cols acc vn m h
    simp only [processBOUNDSgo] at h
    cases h
    exact ⟨0, fun c => by simp [boundsExtract]⟩
  | cons l ls ih =>
    intro cols acc vn m h
    simp only [processBOUNDSgo] at h
    cases hb : matchBounds l with
    | none => rw [hb] at h; cases h
    | some g =>
      obtain ⟨bt, g2, cn, vs⟩ := g
      rw [hb] at h
      dsimp only at h
      by_cases ht : bt ∈ mpsBoundsTypes
      · rw [if_pos ht] at h
        by_cases hv : vn = [] ∨ g2 = vn
        · rw [if_pos hv] at h
          cases hcn : pyLookup cols cn with
          | none => rw [hcn] at h; cases h
          | some cid =>
            rw [hcn] at h
            dsimp only at h
            cases hx : parsePyFloat vs with
            | none => rw [hx] at h; cases h
            | some x =>
              rw [hx] at h
              dsimp only at h
              obtain ⟨n, hn⟩ := ih _ _ _ _ h
              refine ⟨n + 1, fun c => ?_⟩
              rw [hn c]
              by_cases hcc : cn = c
              · subst hcc
                simp [bdGet, pyLookup_pyAppendList, boundsExtract,
                  List.filterMap_cons, hb, hx]
              · have h2 : ¬ c = cn := fun hh => hcc hh.symm
                simp [bdGet, pyLookup_pyAppendList, boundsExtract,
                  List.filterMap_cons, hb, hx, hcc, h2]
        · rw [if_neg hv] at h
          cases h
          exact ⟨0, fun c => by simp [boundsExtract]⟩
      · rw [if_neg ht] at h; cases h

/-! ### Scanner lemmas -/

theorem scanStep_skip (st : ScanState) (l : Line) (h : skipLine l) :
    scanStep st l = .next st := by
  rcases h with h | h | h <;> simp [scanStep, h]

theorem scanStep_endata (st : ScanState) (l : Line)
    (h : pyStrip l = ("ENDATA".toList)) : scanStep st l = .stop st := by
  simp [scanStep, h, matchNAME]

theorem intakeGo_skips (pre : List Line) :
    ∀ (st : ScanState) (rest : List Line), (∀ p ∈ pre, skipLine p) →
      intakeGo st (pre ++ rest) = intakeGo st rest := by
  induction pre with
  | nil => intro st rest _; rfl
  | cons q t ih =>
    intro st rest hpre
    have hq : skipLine q := hpre q (List.mem_cons_self q t)
    simp only [List.cons_append, intakeGo, scanStep_skip st q hq]
    exact ih st rest (fun p hp => hpre p (List.mem_cons_of_mem q hp))

theorem intakeGo_endata (e : Line) (he : pyStrip e = ("ENDATA".toList))
    (pre : List Line) :
    ∀ (st : ScanState) (p : List Line),
      intakeGo st (pre ++ e :: p) = intakeGo st (pre ++ [("ENDATA".toList)]) := by
  induction pre with
  | nil =>
    intro st p
    simp only [List.nil_append, intakeGo, scanStep_endata st e he,
      scanStep_endata st ("ENDATA".toList) (by decide)]
  | cons q t ih =>
    intro st p
    simp only [List.cons_append, intakeGo]
    cases hs : scanStep st q with
    | next st2 => exact ih st2 p
    | stop st2 => rfl
    | fail f => rfl

theorem parseMPS_congr_intake (l1 l2 : List Line)
    (h : intakeMPSLines l1 = intakeMPSLines l2) : parseMPS l1 = parseMPS l2 := by
  unfold parseMPS
  rw [h]

theorem parseMPS_ok_inv (lines : List Line) (m : Model) (h : parseMPS lines = .ok m) :
    ∃ d, intakeMPSLines lines = .ok d ∧
      processROWS d.rows_data = .ok m.rows ∧
      processCOLUMNS d.columns_data m.rows = .ok (m.columns, m.elements) := by
  unfold parseMPS at h
  cases hI : intakeMPSLines lines with
  | err f => rw [hI] at h; cases h
  | ok d =>
    rw [hI] at h
    dsimp only at h
    refine ⟨d, rfl, ?_⟩
    cases hN : processNAME d.name with
    | err f => rw [hN] at h; cases h
    | ok pname =>
      rw [hN] at h
      dsimp only at h
      cases hR : processROWS d.rows_data with
      | err f => rw [hR] at h; cases h
      | ok rows =>
        rw [hR] at h
        dsimp only at h
        cases hC : processCOLUMNS d.columns_data rows with
        | err f => rw [hC] at h; cases h
        | ok pr =>
          obtain ⟨cols, elems⟩ := pr
          rw [hC] at h
          dsimp only at h
          cases hRhs : (if d.rhs_data.isEmpty then Res.ok [] else processRHS d.rhs_data rows) with
          | err f => rw [hRhs] at h; cases h
          | ok rhs =>
            rw [hRhs] at h
            dsimp only at h
            cases hRg : (if d.ranges_data.isEmpty then Res.ok []
                else processRANGES d.ranges_data rows) with
            | err f => rw [hRg] at h; cases h
            | ok ranges =>
              rw [hRg] at h
              dsimp only at h
              cases hB : (if d.bounds_data.isEmpty then Res.ok []
                  else processBOUNDS d.bounds_data cols) with
              | err f => rw [hB] at h; cases h
              | ok bounds =>
                rw [hB] at h
                dsimp only at h
                cases h
                exact ⟨rfl, hC⟩

/-! ### Claim C1 -/

/-- Claim C1, counterexample: `c1doc` has all seven headers present but in
the order ROWS, COLUMNS, NAME, BOUNDS, RHS, ENDATA — violating every
ordering constraint of the claim — yet its parse succeeds, so the scanner
does not enforce strict header ordering. -/
theorem c1_out_of_order_parses : (parseMPS c1doc).isOk = true := by decide

/-- Claim C1, amended: the section scanner checks only the presence of
the NAME, ROWS, COLUMNS and RHS headers and of an ENDATA marker before
scanning stops, plus nonemptiness of the ROWS and COLUMNS buffers; header
order is not enforced.  In particular the out-of-order document `c1doc`
parses successfully to the model its sections describe. -/
theorem c1_scanner_ignores_header_order : parseMPS c1doc = .ok c1model := by decide

/-! ### Claim C2 -/

/-- Claim C2, counterexample: `c2doc` contains the ROWS lines `N R` and
`L R` — two data lines with the same row name — yet the parse succeeds
(no duplicate-row-name error exists in the code), keeping only the later
row definition. -/
theorem c2_duplicate_rows_accepted : parseMPS c2doc = .ok c2model := by decide

/-- Claim C2, amended: duplicate row names are not detected.  `process_ROWS`
silently overwrites: for every successfully processed ROWS section, the
entry recorded for a name is the one from the LAST data line carrying that
name, with that line's position as id and that line's type code. -/
theorem c2_duplicate_row_last_wins (data : List Line) (m : List (Line × RowData))
    (h : processROWS data = .ok m) (n : Line) :
    pyLookup m n = lastRowScan n data 0 := by
  have hw := rowsGo_lastWins data [] 0 m h n
  rw [hw]
  cases lastRowScan n data 0 <;> simp [pyLookup]

/-- Witness for C2: on the duplicated ROWS data `N R`, `L R` the recorded
entry for `R` is the second line's: id 1, type `L`. -/
theorem c2_duplicate_row_last_wins_witness :
    pyLookup [(("R".toList), (⟨1, ("L".toList)⟩ : RowData))] ("R".toList) =
      lastRowScan ("R".toList) [("N R".toList), ("L R".toList)] 0 :=
  c2_duplicate_row_last_wins [("N R".toList), ("L R".toList)]
    [(("R".toList), ⟨1, ("L".toList)⟩)] (by decide) ("R".toList)

/-! ### Claim C3 -/

/-- Claim C3: for every successfully parsed document, the element map
contains no value equal to zero — a coefficient is stored only after the
`value != 0.0` guard, so every stored value is nonzero and a key appears
only when some nonzero coefficient was stored for it. -/
theorem c3_elements_nonzero (lines : List Line) (m : Model)
    (h : parseMPS lines = .ok m) :
    ∀ k v, pyLookup m.elements k = some v → v ≠ pyZero := by
  obtain ⟨d, hI, hR, hC⟩ := parseMPS_ok_inv lines m h
  refine colsGo_nonzero d.columns_data m.rows [] [] 0 m.columns m.elements hC ?_
  intro k v hv
  simp [pyLookup] at hv

/-- Witness for C3: `c3doc` states the coefficient of `(OBJ, X)` as `0.0`;
the parsed model has no entry at key `(0, 0)` while the nonzero entry at
`(1, 0)` is kept, and the theorem applies to it. -/
theorem c3_elements_nonzero_witness :
    parseMPS c3doc = .ok c3model ∧ pyLookup c3model.elements (0, 0) = none ∧
      ((⟨3, 0⟩ : PyNum) ≠ pyZero) :=
  ⟨by decide, by decide,
    c3_elements_nonzero c3doc c3model (by decide) (1, 0) ⟨3, 0⟩ (by decide)⟩

/-! ### Claim C4 -/

/-- Claim C4 (code bug): the numeric character class `[0-9eE.+-]` accepts
tokens that are not valid float literals; on `c4doc`, whose COLUMNS line
is `X OBJ .`, the line matches the 1-pair layout and `float('.')` raises
a bare `ValueError` that escapes the parser — a generic failure outside
the enumerated MPS error kinds, contradicting the claim. -/
theorem c4_float_valueerror_escapes : parseMPS c4doc = .err .valueErrorFloat := by
  decide

/-! ### Claim C5 -/

/-- Claim C5, counterexample: a RANGES data line omitting the leading
vector-name token (`R1 6.0`, a row name followed by one value) does not
parse; `process_RANGES` signals malformed-RANGES-line, because on a
stripped line the leading `(\S*)` of the RANGES patterns can never match
empty. -/
theorem c5_ranges_name_omitted_fails :
    processRANGES [("R1 6.0".toList)] rowsR1 = .err (.known .badRANGESData) := by
  decide

/-- Claim C5, amended: only RHS has vector-name-omitted fallback layouts
(tried after the named 2-pair and 1-pair forms): the name-omitted RHS line
`R1 5.0` yields the same entry as the named line `RHSV R1 5.0`.  RANGES
has no such fallback: a named RANGES line parses, but the name-omitted
form fails with malformed-RANGES-line. -/
theorem c5_rhs_name_omitted_accepted :
    processRHS [("R1 5.0".toList)] rowsR1 = .ok [(("R1".toList), ⟨5, 0⟩)] ∧
    processRHS [("RHSV R1 5.0".toList)] rowsR1 = .ok [(("R1".toList), ⟨5, 0⟩)] ∧
    processRANGES [("RNG R1 6.0".toList)] rowsR1 = .ok [(("R1".toList), ⟨6, 0⟩)] ∧
    processRANGES [("R1 6.0".toList)] rowsR1 = .err (.known .badRANGESData) :=
  ⟨by decide, by decide, by decide, by decide⟩

/-! ### Claim C6 -/

/-- Claim C6, counterexample: in `c6docA` the RHS section's second line
`RHS2 R2 3.0` carries a different vector name; the parse result is
IDENTICAL to that of `c6docB`, which lacks the line entirely — the
remaining buffered lines of the section are silently discarded, not left
for the next recognized header to claim. -/
theorem c6_boundary_tail_discarded :
    parseMPS c6docA = parseMPS c6docB ∧ (parseMPS c6docA).isOk = true :=
  ⟨by decide, by decide⟩

/-- Claim C6, amended: once a section's vector name is established
(nonempty), a later line matching a named layout with a different group-1
token stops that section's consumption with no error, returning exactly
the entries accumulated so far and dropping the rest of the buffer; for
BOUNDS the bound-type check precedes the name check, so this holds for
lines with a recognized bound type. -/
theorem c6_boundary_stops_section :
    (∀ (rows : List (Line × RowData)) (acc : List (Line × PyNum)) (v w l : Line)
        (ls : List Line), v ≠ [] → rhsVecNameOf l = some w → w ≠ v →
        processRHSgo rows acc v (l :: ls) = .ok acc) ∧
    (∀ (rows : List (Line × RowData)) (acc : List (Line × PyNum)) (v w l : Line)
        (ls : List Line), v ≠ [] → rangesVecNameOf l = some w → w ≠ v →
        processRANGESgo rows acc v (l :: ls) = .ok acc) ∧
    (∀ (cols : List (Line × Nat)) (acc : List (Line × List BoundData))
        (v bt w cn vs l : Line) (ls : List Line), v ≠ [] →
        matchBounds l = some (bt, w, cn, vs) → bt ∈ mpsBoundsTypes → w ≠ v →
        processBOUNDSgo cols acc v (l :: ls) = .ok acc) := by
  refine ⟨?_, ?_, ?_⟩
  · intro rows acc v w l ls hv hw hwv
    simp only [processRHSgo]
    cases h2 : match2Pair l with
    | some g =>
      obtain ⟨g1, r1, v1s, r2, v2s⟩ := g
      have : g1 = w := by
        have := hw
        simp [rhsVecNameOf, h2] at this
        exact this
      subst this
      dsimp only
      rw [if_neg]
      rintro (hh | hh)
      · exact hv hh
      · exact hwv hh
    | none =>
      cases h1 : match1Pair l with
      | some g =>
        obtain ⟨g1, rn, vs⟩ := g
        have : g1 = w := by
          have := hw
          simp [rhsVecNameOf, h2, h1] at this
          exact this
        subst this
        dsimp only
        rw [if_neg]
        rintro (hh | hh)
        · exact hv hh
        · exact hwv hh
      | none =>
        have := hw
        simp [rhsVecNameOf, h2, h1] at this
  · intro rows acc v w l ls hv hw hwv
    simp only [processRANGESgo]
    cases h2 : matchRanges2 l with
    | some g =>
      obtain ⟨g1, r1, v1s, r2, v2s⟩ := g
      have : g1 = w := by
        have := hw
        simp [rangesVecNameOf, h2] at this
        exact this
      subst this
      dsimp only
      rw [if_neg]
      rintro (hh | hh)
      · exact hv hh
      · exact hwv hh
    | none =>
      cases h1 : matchRanges1 l with
      | some g =>
        obtain ⟨g1, rn, vs⟩ := g
        have : g1 = w := by
          have := hw
          simp [rangesVecNameOf, h2, h1] at this
          exact this
        subst this
        dsimp only
        rw [if_neg]
        rintro (hh | hh)
        · exact hv hh
        · exact hwv hh
      | none =>
        have := hw
        simp [rangesVecNameOf, h2, h1] at this
  · intro cols acc v bt w cn vs l ls hv hb ht hwv
    simp only [processBOUNDSgo]
    rw [hb]
    dsimp only
    rw [if_pos ht, if_neg]
    rintro (hh | hh)
    · exact hv hh
    · exact hwv hh

/-- Witness for C6: concrete boundary lines stop RHS, RANGES and BOUNDS
consumption, keeping the accumulated entries and ignoring the tail. -/
theorem c6_boundary_stops_section_witness :
    processRHSgo rowsR1 [(("R1".toList), (⟨5, 0⟩ : PyNum))] ("RHS1".toList)
        [("RHS2 R1 9.0".toList), ("junk".toList)] =
      .ok [(("R1".toList), ⟨5, 0⟩)] ∧
    processRANGESgo rowsR1 [] ("RNG".toList) [("RNG2 R1 9.0".toList)] = .ok [] ∧
    processBOUNDSgo c9cols [] ("BND".toList) [("UP BND2 X 9.0".toList)] = .ok [] :=
  ⟨c6_boundary_stops_section.1 rowsR1 [(("R1".toList), ⟨5, 0⟩)] ("RHS1".toList)
      ("RHS2".toList) ("RHS2 R1 9.0".toList) [("junk".toList)]
      (by decide) (by decide) (by decide),
   c6_boundary_stops_section.2.1 rowsR1 [] ("RNG".toList) ("RNG2".toList)
      ("RNG2 R1 9.0".toList) [] (by decide) (by decide) (by decide),
   c6_boundary_stops_section.2.2 c9cols [] ("BND".toList) ("UP".toList)
      ("BND2".toList) ("X".toList) ("9.0".toList) ("UP BND2 X 9.0".toList) []
      (by decide) (by decide) (by decide) (by decide)⟩

/-! ### Claim C7 -/

/-- Claim C7, counterexample: a document with no section headers at all
but also no data lines (a single comment) fails with missing-NAME, not
with not-an-MPS-document as the claim asserts. -/
theorem c7_headerless_comment_only_noname :
    parseMPS [("* nothing here".toList)] = .err (.known .noNAME) ∧
      (Failure.known .noNAME ≠ Failure.known .notMPSFile) :=
  ⟨by decide, by decide⟩

/-- Claim C7, amended: a non-comment, non-blank, non-header line appearing
while no section buffer is open (only skippable lines precede it) makes the
parse fail with not-an-MPS-document; but a document whose lines are all
skippable — in particular one with no headers and no data — fails with
missing-NAME instead. -/
theorem c7_data_line_before_header :
    (∀ (pre : List Line) (l : Line) (rest : List Line),
        (∀ p ∈ pre, skipLine p) → ¬ skipLine l → ¬ headerLine l →
        parseMPS (pre ++ l :: rest) = .err (.known .notMPSFile)) ∧
    (∀ lines : List Line, (∀ p ∈ lines, skipLine p) →
        parseMPS lines = .err (.known .noNAME)) := by
  constructor
  · intro pre l rest hpre hs hh
    have hstep : scanStep initScan l = .fail (.known .notMPSFile) := by
      unfold skipLine at hs
      unfold headerLine at hh
      push_neg at hs hh
      obtain ⟨h1, h2, h3⟩ := hs
      obtain ⟨hn, hr, hc, hrh, hrg, hbd, he⟩ := hh
      have hn2 : (matchNAME (pyStrip l)).isSome = false := by
        cases hmm : (matchNAME (pyStrip l)).isSome
        · rfl
        · exact absurd hmm hn
      simp at hr hc hrh hrg hbd he
      simp [scanStep, appendActive, initScan, h1, h2, h3, hn2, hr, hc, hrh, hrg,
        hbd, he]
    have hIG : intakeGo initScan (pre ++ l :: rest) = .err (.known .notMPSFile) := by
      rw [intakeGo_skips pre initScan (l :: rest) hpre]
      simp only [intakeGo, hstep]
    have hI : intakeMPSLines (pre ++ l :: rest) = .err (.known .notMPSFile) := by
      unfold intakeMPSLines
      rw [hIG]
    unfold parseMPS
    rw [hI]
  · intro lines hpre
    have hIG : intakeGo initScan lines = .ok (initScan, false) := by
      have := intakeGo_skips lines initScan [] hpre
      simpa using this
    have hI : intakeMPSLines lines = .err (.known .noNAME) := by
      unfold intakeMPSLines
      rw [hIG]
      simp [initScan]
    unfold parseMPS
    rw [hI]

/-- Witness for C7: a data line after one comment line triggers
not-an-MPS-document; a comment-only document triggers missing-NAME. -/
theorem c7_data_line_before_header_witness :
    parseMPS [("* c".toList), ("somedata".toList)] = .err (.known .notMPSFile) ∧
      parseMPS [("* c".toList)] = .err (.known .noNAME) :=
  ⟨c7_data_line_before_header.1 [("* c".toList)] ("somedata".toList) []
      (by decide) (by decide) (by decide),
   c7_data_line_before_header.2 [("* c".toList)] (by decide)⟩

/-! ### Claim C8 -/

/-- Claim C8: for every successful parse whose ROWS data has pairwise
distinct row names, the row ids are exactly `0 .. n-1` assigned in file
(first-seen) order, and the column ids are exactly `0 .. m-1` in
first-seen order of the column names in COLUMNS (unconditionally);
re-parsing identical input trivially yields the identical model, the
parser being a pure function. -/
theorem c8_dense_first_seen_ids (lines : List Line) (d : MPSSectionsData) (m : Model)
    (hI : intakeMPSLines lines = .ok d) (hP : parseMPS lines = .ok m)
    (hnd : (d.rows_data.filterMap rowNameOf).Nodup) :
    m.rows.map (fun p => p.2.row_id) = List.range m.rows.length ∧
    m.rows.map (fun p => p.1) = d.rows_data.filterMap rowNameOf ∧
    m.columns.map (fun p => p.2) = List.range m.columns.length ∧
    m.columns.map (fun p => p.1) = seenFold [] (d.columns_data.filterMap colNameOf) ∧
    parseMPS lines = parseMPS lines := by
  obtain ⟨d2, hI2, hR, hC⟩ := parseMPS_ok_inv lines m hP
  rw [hI] at hI2
  cases hI2
  have hrows := rowsGo_dense d.rows_data [] m.rows hR (by simpa using hnd) (by simp)
  have hcols := colsGo_dense d.columns_data m.rows [] [] m.columns m.elements hC
    (by simp)
  obtain ⟨hr1, hr2⟩ := hrows
  obtain ⟨hc1, hc2⟩ := hcols
  refine ⟨hr1, ?_, hc1, ?_, rfl⟩
  · simpa using hr2
  · simpa using hc2

/-- Witness for C8: on `c8doc` the two rows get ids 0, 1 in file order and
the two columns get ids 0, 1 in first-seen order. -/
theorem c8_dense_first_seen_ids_witness :
    (c8sections.rows_data.filterMap rowNameOf).Nodup ∧
    (c8model.rows.map (fun p => p.2.row_id) = List.range c8model.rows.length ∧
     c8model.rows.map (fun p => p.1) = c8sections.rows_data.filterMap rowNameOf ∧
     c8model.columns.map (fun p => p.2) = List.range c8model.columns.length ∧
     c8model.columns.map (fun p => p.1) =
       seenFold [] (c8sections.columns_data.filterMap colNameOf) ∧
     parseMPS c8doc = parseMPS c8doc) :=
  ⟨by decide,
   c8_dense_first_seen_ids c8doc c8sections c8model (by decide) (by decide)
     (by decide)⟩

/-! ### Claim C9 -/

/-- Claim C9, counterexample: a column with exactly one lower-bound line
followed by one upper-bound line does NOT always yield two entries: when
the two lines carry different vector-name tokens, the second line stops
the section's consumption, and the column keeps a single entry. -/
theorem c9_two_vectors_single_entry :
    processBOUNDS [("LO BNDA X 1.0".toList), ("UP BNDB X 4.0".toList)] c9cols =
      .ok [(("X".toList), [⟨("LO".toList), ⟨1, 0⟩⟩])] := by decide

/-- Claim C9, amended: for every successful BOUNDS processing, there is a consumed
prefix of the section's lines such that each column's recorded bound list
is exactly the entries those lines state for it, in file order — each new
entry appended at the end, none replaced. -/
theorem c9_bounds_file_order (data : List Line) (cols : List (Line × Nat))
    (m : List (Line × List BoundData)) (h : processBOUNDS data cols = .ok m) :
    ∃ n, ∀ c, bdGet m c = boundsExtract c (data.take n) := by
  obtain ⟨n, hn⟩ := boundsGo_order data cols [] [] m h
  refine ⟨n, fun c => ?_⟩
  have := hn c
  simpa [bdGet, pyLookup] using this

/-- Witness for C9: a column with one LO line followed by one UP line in
the same vector gets exactly two entries, lower first then upper, and the
theorem applies. -/
theorem c9_bounds_file_order_witness :
    processBOUNDS c9data c9cols = .ok c9bounds ∧
    bdGet c9bounds ("X".toList) =
      [⟨("LO".toList), ⟨1, 0⟩⟩, ⟨("UP".toList), ⟨4, 0⟩⟩] ∧
    (∃ n, ∀ c, bdGet c9bounds c = boundsExtract c (c9data.take n)) :=
  ⟨by decide, by decide, c9_bounds_file_order c9data c9cols c9bounds (by decide)⟩

/-! ### Claim C10 -/

/-- Claim C10: everything after the first line that strips to `ENDATA` is
ignored — two documents identical up to and including that line parse to
identical results, whatever follows it. -/
theorem c10_endata_cutoff (pre : List Line) (e : Line) (p1 p2 : List Line)
    (hpre : ∀ l ∈ pre, pyStrip l ≠ ("ENDATA".toList))
    (he : pyStrip e = ("ENDATA".toList)) :
    parseMPS (pre ++ e :: p1) = parseMPS (pre ++ e :: p2) := by
  have h1 : intakeMPSLines (pre ++ e :: p1) =
      intakeMPSLines (pre ++ [("ENDATA".toList)]) := by
    unfold intakeMPSLines
    rw [intakeGo_endata e he pre initScan p1]
  have h2 : intakeMPSLines (pre ++ e :: p2) =
      intakeMPSLines (pre ++ [("ENDATA".toList)]) := by
    unfold intakeMPSLines
    rw [intakeGo_endata e he pre initScan p2]
  exact parseMPS_congr_intake _ _ (h1.trans h2.symm)

/-- Witness for C10: appending a bogus section after `ENDATA` leaves the
parse result unchanged. -/
theorem c10_endata_cutoff_witness :
    parseMPS (c10pre ++ ("ENDATA".toList) ::
        [("BOUNDS".toList), ("totally malformed garbage".toList)]) =
      parseMPS (c10pre ++ ("ENDATA".toList) :: []) :=
  c10_endata_cutoff c10pre ("ENDATA".toList)
    [("BOUNDS".toList), ("totally malformed garbage".toList)] []
    (by decide) (by decide)

end MPSV
